import Mathlib

/-!
Shallow embedding of `src/main.py`, an EDA script over a call-quality survey
table.  The pipeline is: load → clean (sentinel replacement, mean imputation,
row drop on missing `state_name`, string strip/title) → min-max scale the
columns `rating`, `latitude`, `longitude` → 80/20 train/test split →
ordinary-least-squares fit of rating on normalized longitude → single-point
prediction and mean-squared-error evaluation.

Numeric cells are `Option ℚ` (`none` is pandas' NaN / missing marker);
string cells are `Option (List Nat)` (Unicode code points), so that Python's
`str.strip` and `str.title` can be embedded faithfully at code-point level
for the ASCII data the script handles.
-/

namespace EDA

/-! ### Python string operations at code-point level -/

/-- Python whitespace test for the ASCII whitespace code points
(space, tab, LF, VT, FF, CR), as used by `str.strip()`. -/
def isWsN (n : Nat) : Bool :=
  n == 32 || n == 9 || n == 10 || n == 11 || n == 12 || n == 13

/-- ASCII letter test, as `str.title()` uses to find word boundaries. -/
def isAlphaN (n : Nat) : Bool :=
  (65 ≤ n && n ≤ 90) || (97 ≤ n && n ≤ 122)

/-- ASCII uppercase-letter test. -/
def isUpperN (n : Nat) : Bool := 65 ≤ n && n ≤ 90

/-- ASCII lowercase-letter test. -/
def isLowerN (n : Nat) : Bool := 97 ≤ n && n ≤ 122

/-- ASCII upcasing of a code point. -/
def toUpperN (n : Nat) : Nat := if 97 ≤ n ∧ n ≤ 122 then n - 32 else n

/-- ASCII downcasing of a code point. -/
def toLowerN (n : Nat) : Nat := if 65 ≤ n ∧ n ≤ 90 then n + 32 else n

/-- Python `str.strip()`: remove leading and trailing whitespace. -/
def pyStrip (l : List Nat) : List Nat :=
  ((l.dropWhile isWsN).reverse.dropWhile isWsN).reverse

/-- Helper for `pyTitle`: the Boolean carries whether the previous
character was a letter (i.e. whether we are inside a word). -/
def pyTitleAux : Bool → List Nat → List Nat
  | _, [] => []
  | prev, c :: cs =>
      (if isAlphaN c then (if prev then toLowerN c else toUpperN c) else c) ::
        pyTitleAux (isAlphaN c) cs

/-- Python `str.title()`: the first letter of each maximal letter run is
upcased and the remaining letters of the run are downcased; non-letters
are unchanged. -/
def pyTitle (l : List Nat) : List Nat := pyTitleAux false l

/-- Helper for `titleOk`: checks the title-case discipline with a carry
recording whether the previous character was a letter. -/
def titleOkAux : Bool → List Nat → Bool
  | _, [] => true
  | prev, c :: cs =>
      (if isAlphaN c then (if prev then isLowerN c else isUpperN c) else true) &&
        titleOkAux (isAlphaN c) cs

/-- A string is title-cased: every letter opening a letter run is uppercase
and every other letter is lowercase. -/
def titleOk (l : List Nat) : Bool := titleOkAux false l

/-- `df[col].str.strip().str.title()` applied to one cell. -/
def cleanStr (l : List Nat) : List Nat := pyTitle (pyStrip l)

/-- Code points of a Lean string literal, for writing concrete tables. -/
def strCodes (s : String) : List Nat := s.data.map Char.toNat

/-! ### Data model -/

/-- One survey row.  `none` models a missing cell (pandas NaN).  Only the
columns the script touches are carried. -/
structure Row where
  rating : Option ℚ
  latitude : Option ℚ
  longitude : Option ℚ
  month : Option ℚ
  year : Option ℚ
  state_name : Option (List Nat)
  operator : Option (List Nat)
  network_type : Option (List Nat)
  calldrop_category : Option (List Nat)
  inout_travelling : Option (List Nat)
deriving DecidableEq

/-- The in-memory table: a list of rows, order significant. -/
abbrev Table := List Row

/-! ### Cleaning stage (src/main.py lines 30-40) -/

/-- `replace(-1.0, np.nan)` on one cell: the sentinel becomes missing. -/
def replaceSent (v : Option ℚ) : Option ℚ :=
  match v with
  | some x => if x = -1 then none else some x
  | none => none

/-- Arithmetic mean of a list of rationals; `none` on the empty list
(pandas' mean of an all-NaN column is NaN). -/
def meanVals (p : List ℚ) : Option ℚ :=
  if p = [] then none else some (p.sum / p.length)

/-- `Series.mean()`: mean of the present values, skipping missing ones. -/
def meanOpt (xs : List (Option ℚ)) : Option ℚ := meanVals (xs.filterMap id)

/-- `fillna` on one cell: a present value is kept, a missing one receives
the fill value (itself possibly missing, in which case nothing changes). -/
def fillCell (v fv : Option ℚ) : Option ℚ :=
  match v with
  | some x => some x
  | none => fv

/-- Line 31: sentinel replacement on the `latitude` and `longitude`
columns of every row. -/
def replacedTable (t : Table) : Table :=
  t.map fun r =>
    { r with latitude := replaceSent r.latitude,
             longitude := replaceSent r.longitude }

/-- Line 35: mean imputation of `latitude` and `longitude`, the means being
computed on the sentinel-replaced table. -/
def filledTable (t : Table) : Table :=
  let t1 := replacedTable t
  let mLat := meanOpt (t1.map (·.latitude))
  let mLong := meanOpt (t1.map (·.longitude))
  t1.map fun r =>
    { r with latitude := fillCell r.latitude mLat,
             longitude := fillCell r.longitude mLong }

/-- The five string columns of line 38, gathered as one row update. -/
def stripTitleRow (r : Row) : Row :=
  { r with inout_travelling := r.inout_travelling.map cleanStr,
           operator := r.operator.map cleanStr,
           network_type := r.network_type.map cleanStr,
           calldrop_category := r.calldrop_category.map cleanStr,
           state_name := r.state_name.map cleanStr }

/-- The whole cleaning block, lines 30-40: sentinel replacement, mean
imputation, drop of rows with missing `state_name`, strip/title of the
string columns. -/
def cleanStage (t : Table) : Table :=
  (((filledTable t).filter fun r => r.state_name.isSome).map stripTitleRow)

/-! ### Scaling stage (src/main.py lines 116-117) -/

/-- Least element of a list of rationals, `none` on the empty list. -/
def listMin : List ℚ → Option ℚ
  | [] => none
  | x :: xs => match listMin xs with | none => some x | some m => some (min x m)

/-- Greatest element of a list of rationals, `none` on the empty list. -/
def listMax : List ℚ → Option ℚ
  | [] => none
  | x :: xs => match listMax xs with | none => some x | some m => some (max x m)

/-- `MinMaxScaler.fit` on one column: `(data_min, data_max)` over the
present values (NaN cells are ignored by the fit); the defaults for an
all-missing column are never consulted by a transform. -/
def fitCol (xs : List (Option ℚ)) : ℚ × ℚ :=
  ((listMin (xs.filterMap id)).getD 0, (listMax (xs.filterMap id)).getD 0)

/-- sklearn's zero-range handling: a column with `max = min` gets scale
denominator 1 instead of 0. -/
def mmDen (mn mx : ℚ) : ℚ := if mx - mn = 0 then 1 else mx - mn

/-- Min-max transform of one cell: `(x - min) / (max - min)`; a missing
cell stays missing. -/
def mmCell (mn mx : ℚ) (v : Option ℚ) : Option ℚ :=
  v.map fun x => (x - mn) / mmDen mn mx

/-- Fit of column 0 of the scaler matrix `[rating, latitude, longitude]`. -/
def ratingFit (t : Table) : ℚ × ℚ := fitCol (t.map (·.rating))

/-- Fit of column 1 of the scaler matrix `[rating, latitude, longitude]`. -/
def latFit (t : Table) : ℚ × ℚ := fitCol (t.map (·.latitude))

/-- Fit of column 2 of the scaler matrix `[rating, latitude, longitude]`. -/
def longFit (t : Table) : ℚ × ℚ := fitCol (t.map (·.longitude))

/-- Line 117: `scaler.fit_transform(df_clean[['rating','latitude','longitude']])`
assigned back in place: the three numeric columns are min-max scaled, all
other columns are untouched. -/
def scaleStage (t : Table) : Table :=
  t.map fun r =>
    { r with rating := mmCell (ratingFit t).1 (ratingFit t).2 r.rating
             latitude := mmCell (latFit t).1 (latFit t).2 r.latitude
             longitude := mmCell (longFit t).1 (longFit t).2 r.longitude }

/-! ### Prediction input (src/main.py line 140)

`scaler.transform([[0, 20.5, 0]])[0][1]`: the fitted three-column scaler is
applied to the placeholder row and the component at index 1 is taken.  The
scaler was fit on the columns in the order `rating, latitude, longitude`,
so index 1 is the *latitude* column's transform. -/

/-- The value the code feeds the model (line 140): 20.5 scaled with the
parameters of scaler column index 1, i.e. the latitude column fitted on
the cleaned table. -/
def longNormCode (t : Table) : ℚ :=
  ((41 / 2 : ℚ) - (latFit (cleanStage t)).1) /
    mmDen (latFit (cleanStage t)).1 (latFit (cleanStage t)).2

/-- Modelled from the spec's words, for comparison with `longNormCode`:
the normalized longitude for raw longitude 20.5, i.e.
`(20.5 - min(longitude)) / (max(longitude) - min(longitude))` over the
cleaned data. -/
def longNormIntended (t : Table) : ℚ :=
  ((41 / 2 : ℚ) - (longFit (cleanStage t)).1) /
    mmDen (longFit (cleanStage t)).1 (longFit (cleanStage t)).2

/-! ### Train/test split (src/main.py line 134)

`train_test_split(x, y, test_size=0.2, random_state=42)` draws a
seed-determined permutation of the row indices, puts the first
`ceil(0.2 * n)` permuted indices in the test split and the rest in the
train split.  The seed-42 permutation is modelled as an explicit
permutation parameter; the sizes and the partition structure do not
depend on it. -/

/-- sklearn's test-split size: `ceil(test_size * n)` with `test_size = 0.2`. -/
def testCount (n : Nat) : Nat := (n + 4) / 5

/-- Indices assigned to the test split: the first `testCount n` entries of
the shuffled index sequence. -/
def testIdx (n : Nat) (σ : Equiv.Perm (Fin n)) : List (Fin n) :=
  (((List.finRange n).map σ).take (testCount n))

/-- Indices assigned to the train split: the remaining entries of the
shuffled index sequence. -/
def trainIdx (n : Nat) (σ : Equiv.Perm (Fin n)) : List (Fin n) :=
  (((List.finRange n).map σ).drop (testCount n))

/-! ### Regression and evaluation (src/main.py lines 136-159) -/

/-- Ordinary-least-squares fit with intercept on one feature, the closed
form of `LinearRegression().fit`: returns `(slope, intercept)`.  The
degenerate cases (no points, constant feature) take the minimum-norm
convention. -/
def olsFit (pts : List (ℚ × ℚ)) : ℚ × ℚ :=
  if pts.length = 0 then (0, 0) else
    let n : ℚ := pts.length
    let sx := (pts.map Prod.fst).sum
    let sy := (pts.map Prod.snd).sum
    let sxx := (pts.map fun p => p.1 * p.1).sum
    let sxy := (pts.map fun p => p.1 * p.2).sum
    let d := n * sxx - sx * sx
    if d = 0 then (0, sy / n) else ((n * sxy - sx * sy) / d, (sy - (n * sxy - sx * sy) / d * sx) / n)

/-- `model.predict` at one feature value. -/
def predictAt (coef : ℚ × ℚ) (x : ℚ) : ℚ := coef.2 + coef.1 * x

/-- `mean_squared_error` of a fitted model on a list of (feature, target)
points. -/
def mseOf (coef : ℚ × ℚ) (pts : List (ℚ × ℚ)) : ℚ :=
  (meanVals (pts.map fun p => (predictAt coef p.1 - p.2) ^ 2)).getD 0

/-- sklearn raises on missing values: a column enters the regression only
if every cell is present. -/
def seqOpt (l : List (Option ℚ)) : Option (List ℚ) :=
  if l.all Option.isSome then some (l.filterMap id) else none

/-- The seed-derived shuffle: one permutation of the row indices for each
possible row count (`numpy`'s seed-42 generator, abstracted). -/
def Shuffle : Type := (n : Nat) → Equiv.Perm (Fin n)

/-- Lines 116-159 composed: clean, scale, split, fit, predict at the
placeholder row, evaluate.  Returns `(slope, intercept, prediction, mse)`,
or `none` where sklearn would raise on a missing value. -/
def runPipeline (sh : Shuffle) (t : Table) : Option (ℚ × ℚ × ℚ × ℚ) :=
  let c := scaleStage (cleanStage t)
  match seqOpt (c.map (·.longitude)), seqOpt (c.map (·.rating)) with
  | some xs, some ys =>
      let pts := xs.zip ys
      let n := pts.length
      let trainPts := (trainIdx n (sh n)).map fun i => pts.getD i.val (0, 0)
      let testPts := (testIdx n (sh n)).map fun i => pts.getD i.val (0, 0)
      let coef := olsFit trainPts
      some (coef.1, coef.2, predictAt coef (longNormCode t), mseOf coef testPts)
  | _, _ => none

/-! ### Concrete tables used in the witnesses and counterexamples -/

/-- A row with every cell missing, for building concrete tables. -/
def blankRow : Row :=
  { rating := none, latitude := none, longitude := none, month := none,
    year := none, state_name := none, operator := none, network_type := none,
    calldrop_category := none, inout_travelling := none }

/-- First row of the spec's end-to-end example: sentinel latitude,
longitude 77.5, state " delhi ". -/
def exRow1 : Row :=
  { blankRow with
    rating := some 3
    latitude := some (-1)
    longitude := some (155 / 2)
    state_name := some (strCodes (" delhi ")) }

/-- Second row of the spec's end-to-end example: latitude 12.9,
longitude 77.6, state "Karnataka". -/
def exRow2 : Row :=
  { blankRow with
    rating := some 5
    latitude := some (129 / 10)
    longitude := some (388 / 5)
    state_name := some (strCodes ("Karnataka")) }

/-- The spec's two-row end-to-end example table. -/
def exTable : Table := [exRow1, exRow2]

/-- A table on which the latitude and longitude columns have different
ranges, exposing which scaler column the prediction step really uses. -/
def bugRow1 : Row :=
  { blankRow with
    rating := some 1
    latitude := some 10
    longitude := some 70
    state_name := some (strCodes ("A")) }

/-- Companion row of `bugRow1`. -/
def bugRow2 : Row :=
  { blankRow with
    rating := some 5
    latitude := some 30
    longitude := some 80
    state_name := some (strCodes ("B")) }

/-- Concrete table for the prediction-step check: cleaned latitudes span
[10, 30], cleaned longitudes span [70, 80]. -/
def bugTable : Table := [bugRow1, bugRow2]

/-- Row whose latitude is missing but whose `state_name` is present. -/
def impRow1 : Row :=
  { blankRow with
    rating := some 1
    longitude := some 70
    state_name := some (strCodes ("A")) }

/-- Row with latitude 100 that will be dropped for missing `state_name`. -/
def impRow2 : Row :=
  { blankRow with
    rating := some 2
    latitude := some 100
    longitude := some 70 }

/-- Row with latitude 0 and `state_name` present. -/
def impRow3 : Row :=
  { blankRow with
    rating := some 3
    latitude := some 0
    longitude := some 70
    state_name := some (strCodes ("B")) }

/-- Table showing that the imputation mean sees rows that the
`state_name` filter later drops. -/
def impTable : Table := [impRow1, impRow2, impRow3]

/-- The columns the scaling stage does not touch, gathered in one tuple. -/
def otherCols (r : Row) :
    Option ℚ × Option ℚ × Option (List Nat) × Option (List Nat) ×
      Option (List Nat) × Option (List Nat) × Option (List Nat) :=
  (r.month, r.year, r.state_name, r.operator, r.network_type,
    r.calldrop_category, r.inout_travelling)

/-- Rows of the C2 counterexample: non-sentinel latitudes -3 and 1 whose
mean is exactly the sentinel value -1. -/
def c2Row1 : Row :=
  { blankRow with
    rating := some 1
    latitude := some (-3)
    longitude := some 70
    state_name := some (strCodes ("A")) }

/-- Second C2 counterexample row. -/
def c2Row2 : Row :=
  { blankRow with
    rating := some 2
    latitude := some 1
    longitude := some 70
    state_name := some (strCodes ("B")) }

/-- Third C2 counterexample row: sentinel latitude, to be imputed. -/
def c2Row3 : Row :=
  { blankRow with
    rating := some 3
    latitude := some (-1)
    longitude := some 70
    state_name := some (strCodes ("C")) }

/-- Table on which the imputed latitude equals the sentinel -1. -/
def c2Table : Table := [c2Row1, c2Row2, c2Row3]

/-! ### General cleaning lemmas -/

/-- Sentinel replacement never outputs the sentinel itself. -/
lemma replaceSent_ne_sentinel (v : Option ℚ) (x : ℚ)
    (h : replaceSent v = some x) : x ≠ -1 := by
  cases v with
  | none => simp [replaceSent] at h
  | some y =>
    by_cases hy : y = -1
    · simp [replaceSent, hy] at h
    · simp [replaceSent, hy] at h
      exact h ▸ hy

/-- The latitude column of the sentinel-replaced table, columnwise. -/
lemma replacedTable_lat_col (t : Table) :
    (replacedTable t).map (·.latitude) = (t.map (·.latitude)).map replaceSent := by
  simp [replacedTable, List.map_map]

/-- The longitude column of the sentinel-replaced table, columnwise. -/
lemma replacedTable_long_col (t : Table) :
    (replacedTable t).map (·.longitude) = (t.map (·.longitude)).map replaceSent := by
  simp [replacedTable, List.map_map]

/-- The latitude column after imputation: every cell is filled with the
mean of the whole sentinel-replaced column. -/
lemma filledTable_lat_col (t : Table) :
    (filledTable t).map (·.latitude)
      = ((replacedTable t).map (·.latitude)).map
          (fun v => fillCell v (meanOpt ((replacedTable t).map (·.latitude)))) := by
  simp [filledTable, List.map_map]

/-- The longitude column after imputation. -/
lemma filledTable_long_col (t : Table) :
    (filledTable t).map (·.longitude)
      = ((replacedTable t).map (·.longitude)).map
          (fun v => fillCell v (meanOpt ((replacedTable t).map (·.longitude)))) := by
  simp [filledTable, List.map_map]

/-- Sentinel replacement keeps exactly the present non-sentinel values of
a column. -/
lemma presentVals_replaceSent (xs : List (Option ℚ)) :
    (xs.map replaceSent).filterMap id = (xs.filterMap id).filter fun x => x ≠ -1 := by
  induction xs with
  | nil => rfl
  | cons a xs ih =>
    cases a with
    | none => simpa [replaceSent] using ih
    | some x =>
      by_cases hx : x = -1 <;> simp [replaceSent, hx, ih]

/-- After imputation a column cell is either a non-sentinel original value
or the column mean. -/
lemma fillCol_ok (xs : List (Option ℚ)) (v : Option ℚ)
    (hv : v ∈ (xs.map replaceSent).map
        (fun u => fillCell u (meanOpt (xs.map replaceSent))))
    (h1 : meanOpt (xs.map replaceSent) ≠ some (-1))
    (h2 : none ∈ xs.map replaceSent → meanOpt (xs.map replaceSent) ≠ none) :
    v ≠ none ∧ v ≠ some (-1) := by
  obtain ⟨u, hu, rfl⟩ := List.mem_map.mp hv
  cases u with
  | some x =>
    obtain ⟨w, _, hwx⟩ := List.mem_map.mp hu
    have hx := replaceSent_ne_sentinel w x hwx
    exact ⟨by simp [fillCell], by simp [fillCell, hx]⟩
  | none =>
    have hm := h2 hu
    exact ⟨hm, h1⟩

/-! ### String lemmas: strip and title-case -/

/-- An ASCII letter is not whitespace. -/
lemma alphaN_not_ws (c : Nat) (h : isAlphaN c = true) : isWsN c = false := by
  simp [isAlphaN, isWsN] at *
  omega

/-- Upcasing a letter yields an uppercase letter, still no whitespace. -/
lemma upperN_ok (c : Nat) (h : isAlphaN c = true) :
    isAlphaN (toUpperN c) = true ∧ isUpperN (toUpperN c) = true
      ∧ isWsN (toUpperN c) = false := by
  simp [isAlphaN, isUpperN, isWsN, toUpperN] at *
  split_ifs <;> omega

/-- Downcasing a letter yields a lowercase letter, still no whitespace. -/
lemma lowerN_ok (c : Nat) (h : isAlphaN c = true) :
    isAlphaN (toLowerN c) = true ∧ isLowerN (toLowerN c) = true
      ∧ isWsN (toLowerN c) = false := by
  simp [isAlphaN, isLowerN, isWsN, toLowerN] at *
  split_ifs <;> omega

/-- Title-casing does not change which positions hold whitespace. -/
lemma pyTitleAux_ws (l : List Nat) :
    ∀ prev, (pyTitleAux prev l).map isWsN = l.map isWsN := by
  induction l with
  | nil => intro prev; rfl
  | cons c cs ih =>
    intro prev
    by_cases hc : isAlphaN c = true
    · cases prev <;>
        simp [pyTitleAux, hc, ih, (upperN_ok c hc).2.2, (lowerN_ok c hc).2.2,
          alphaN_not_ws c hc]
    · have hc' : isAlphaN c = false := by simpa using hc
      simp [pyTitleAux, hc', ih]

/-- The output of `pyTitleAux` satisfies the title-case discipline. -/
lemma titleOkAux_pyTitleAux (l : List Nat) :
    ∀ prev, titleOkAux prev (pyTitleAux prev l) = true := by
  induction l with
  | nil => intro prev; rfl
  | cons c cs ih =>
    intro prev
    by_cases hc : isAlphaN c = true
    · cases prev
      · simp [pyTitleAux, titleOkAux, hc, (upperN_ok c hc).1,
          (upperN_ok c hc).2.1, ih]
      · simp [pyTitleAux, titleOkAux, hc, (lowerN_ok c hc).1,
          (lowerN_ok c hc).2.1, ih]
    · have hc' : isAlphaN c = false := by simpa using hc
      simp [pyTitleAux, titleOkAux, hc', ih]

/-- A string has no leading and no trailing whitespace. -/
def noEdgeWs (l : List Nat) : Prop :=
  (∀ c, l.head? = some c → isWsN c = false)
    ∧ (∀ c, l.getLast? = some c → isWsN c = false)

/-- The head surviving a whitespace `dropWhile` is not whitespace. -/
lemma head?_dropWhile_ws (l : List Nat) (c : Nat)
    (h : (List.dropWhile isWsN l).head? = some c) : isWsN c = false := by
  induction l with
  | nil => simp [List.dropWhile] at h
  | cons a as ih =>
    by_cases ha : isWsN a = true
    · rw [List.dropWhile_cons, if_pos ha] at h
      exact ih h
    · rw [List.dropWhile_cons, if_neg ha] at h
      simp at h
      rw [← h]
      simpa using ha

/-- `dropWhile` only removes from the front, so a present last element is
the last element of the original list. -/
lemma getLast?_dropWhile_ws (l : List Nat) (c : Nat)
    (h : (List.dropWhile isWsN l).getLast? = some c) : l.getLast? = some c := by
  have hne : List.dropWhile isWsN l ≠ [] := by
    intro hn
    rw [hn] at h
    simp at h
  obtain ⟨u, hu⟩ := List.dropWhile_suffix (l := l) isWsN
  rw [← hu, List.getLast?_append_of_ne_nil _ hne]
  exact h

/-- `pyStrip` output has no whitespace at either edge. -/
lemma pyStrip_noEdgeWs (s : List Nat) : noEdgeWs (pyStrip s) := by
  constructor
  · intro c hc
    unfold pyStrip at hc
    rw [List.head?_reverse] at hc
    have h2 := getLast?_dropWhile_ws _ _ hc
    rw [List.getLast?_reverse] at h2
    exact head?_dropWhile_ws _ _ h2
  · intro c hc
    unfold pyStrip at hc
    rw [List.getLast?_reverse] at hc
    exact head?_dropWhile_ws _ _ hc

/-- Title-casing preserves the absence of edge whitespace. -/
lemma pyTitle_noEdgeWs (s : List Nat) (h : noEdgeWs s) : noEdgeWs (pyTitle s) := by
  have hmap : (pyTitle s).map isWsN = s.map isWsN := pyTitleAux_ws s false
  constructor
  · intro c hc
    have h1 : ((pyTitle s).map isWsN).head? = some (isWsN c) := by
      rw [List.head?_map, hc]
      rfl
    rw [hmap, List.head?_map] at h1
    cases hs : s.head? with
    | none =>
      rw [hs] at h1
      simp at h1
    | some d =>
      rw [hs] at h1
      simp at h1
      rw [← h1]
      exact h.1 d hs
  · intro c hc
    have h1 : ((pyTitle s).map isWsN).getLast? = some (isWsN c) := by
      rw [List.getLast?_map, hc]
      rfl
    rw [hmap, List.getLast?_map] at h1
    cases hs : s.getLast? with
    | none =>
      rw [hs] at h1
      simp at h1
    | some d =>
      rw [hs] at h1
      simp at h1
      rw [← h1]
      exact h.2 d hs

/-- The cleaning of one string cell: stripped at both edges and
title-cased. -/
lemma cleanStr_ok (s : List Nat) :
    noEdgeWs (cleanStr s) ∧ titleOk (cleanStr s) = true :=
  ⟨pyTitle_noEdgeWs _ (pyStrip_noEdgeWs s), titleOkAux_pyTitleAux _ false⟩

/-- A string cell is normalized: if present, it has no edge whitespace and
is title-cased. -/
def strNormed (o : Option (List Nat)) : Prop :=
  ∀ s, o = some s → noEdgeWs s ∧ titleOk s = true

/-! ### Min/max lemmas for the scaler -/

/-- `listMin` of the empty list only. -/
lemma listMin_eq_none (l : List ℚ) : listMin l = none ↔ l = [] := by
  cases l with
  | nil => simp [listMin]
  | cons x xs =>
    simp only [listMin]
    cases listMin xs <;> simp

/-- A computed minimum is an element of the list. -/
lemma listMin_mem (l : List ℚ) (m : ℚ) (h : listMin l = some m) : m ∈ l := by
  induction l generalizing m with
  | nil => simp [listMin] at h
  | cons x xs ih =>
    simp only [listMin] at h
    cases hxs : listMin xs with
    | none =>
      rw [hxs] at h
      simp at h
      simp [h]
    | some m' =>
      rw [hxs] at h
      simp at h
      rcases min_cases x m' with ⟨heq, _⟩ | ⟨heq, _⟩
      · simp [← h, heq]
      · simp [← h, heq, ih m' hxs]

/-- The computed minimum bounds every element from below. -/
lemma listMin_le (l : List ℚ) (m : ℚ) (h : listMin l = some m) :
    ∀ x ∈ l, m ≤ x := by
  induction l generalizing m with
  | nil => simp
  | cons x xs ih =>
    simp only [listMin] at h
    cases hxs : listMin xs with
    | none =>
      rw [hxs] at h
      simp at h
      rw [(listMin_eq_none xs).mp hxs]
      simp [h]
    | some m' =>
      rw [hxs] at h
      simp at h
      intro y hy
      rcases List.mem_cons.mp hy with hq | hyx
      · rw [hq, ← h]
        exact min_le_left _ _
      · exact le_trans (h ▸ min_le_right x m') (ih m' hxs y hyx)

/-- `listMax` of the empty list only. -/
lemma listMax_eq_none (l : List ℚ) : listMax l = none ↔ l = [] := by
  cases l with
  | nil => simp [listMax]
  | cons x xs =>
    simp only [listMax]
    cases listMax xs <;> simp

/-- A computed maximum is an element of the list. -/
lemma listMax_mem (l : List ℚ) (m : ℚ) (h : listMax l = some m) : m ∈ l := by
  induction l generalizing m with
  | nil => simp [listMax] at h
  | cons x xs ih =>
    simp only [listMax] at h
    cases hxs : listMax xs with
    | none =>
      rw [hxs] at h
      simp at h
      simp [h]
    | some m' =>
      rw [hxs] at h
      simp at h
      rcases max_cases x m' with ⟨heq, _⟩ | ⟨heq, _⟩
      · simp [← h, heq]
      · simp [← h, heq, ih m' hxs]

/-- The computed maximum bounds every element from above. -/
lemma listMax_ge (l : List ℚ) (m : ℚ) (h : listMax l = some m) :
    ∀ x ∈ l, x ≤ m := by
  induction l generalizing m with
  | nil => simp
  | cons x xs ih =>
    simp only [listMax] at h
    cases hxs : listMax xs with
    | none =>
      rw [hxs] at h
      simp at h
      rw [(listMax_eq_none xs).mp hxs]
      simp [h]
    | some m' =>
      rw [hxs] at h
      simp at h
      intro y hy
      rcases List.mem_cons.mp hy with hq | hyx
      · rw [hq, ← h]
        exact le_max_left _ _
      · exact le_trans (ih m' hxs y hyx) (h ▸ le_max_right x m')

/-- Present values of a min-max-transformed column. -/
lemma presentVals_mmCell (mn mx : ℚ) (xs : List (Option ℚ)) :
    (xs.map (mmCell mn mx)).filterMap id
      = (xs.filterMap id).map fun x => (x - mn) / mmDen mn mx := by
  induction xs with
  | nil => rfl
  | cons a xs ih =>
    cases a <;> simp [mmCell, ih]

/-- A column is non-constant: it has two distinct present values. -/
def nonConstCol (xs : List (Option ℚ)) : Prop :=
  ∃ a ∈ xs.filterMap id, ∃ b ∈ xs.filterMap id, a ≠ b

instance (xs : List (Option ℚ)) : Decidable (nonConstCol xs) := by
  unfold nonConstCol
  infer_instance

/-- On a non-constant column the min-max transform lands in [0,1] and
attains both endpoints. -/
lemma scaledCol_bounds (xs : List (Option ℚ)) (h : nonConstCol xs) :
    (∀ v ∈ (xs.map (mmCell (fitCol xs).1 (fitCol xs).2)).filterMap id,
        0 ≤ v ∧ v ≤ 1)
    ∧ (0 : ℚ) ∈ (xs.map (mmCell (fitCol xs).1 (fitCol xs).2)).filterMap id
    ∧ (1 : ℚ) ∈ (xs.map (mmCell (fitCol xs).1 (fitCol xs).2)).filterMap id := by
  obtain ⟨a, ha, b, hb, hab⟩ := h
  have hpne : xs.filterMap id ≠ [] := List.ne_nil_of_mem ha
  obtain ⟨mn, hmn⟩ : ∃ m, listMin (xs.filterMap id) = some m := by
    cases hc : listMin (xs.filterMap id) with
    | none => exact absurd ((listMin_eq_none _).mp hc) hpne
    | some m => exact ⟨m, rfl⟩
  obtain ⟨mx, hmx⟩ : ∃ m, listMax (xs.filterMap id) = some m := by
    cases hc : listMax (xs.filterMap id) with
    | none => exact absurd ((listMax_eq_none _).mp hc) hpne
    | some m => exact ⟨m, rfl⟩
  have hfit : fitCol xs = (mn, mx) := by simp [fitCol, hmn, hmx]
  have hle := listMin_le _ _ hmn
  have hge := listMax_ge _ _ hmx
  have hlt : mn < mx := by
    rcases lt_or_le mn mx with h | h
    · exact h
    · exfalso
      have h1 : a = b := le_antisymm
        (le_trans (hge a ha) (le_trans h (hle b hb)))
        (le_trans (hge b hb) (le_trans h (hle a ha)))
      exact hab h1
  have hden : mmDen mn mx = mx - mn := by
    rw [mmDen, if_neg]
    intro hc
    have := sub_pos.mpr hlt
    rw [hc] at this
    exact lt_irrefl 0 this
  rw [hfit, presentVals_mmCell, hden]
  refine ⟨?_, ?_, ?_⟩
  · intro v hv
    obtain ⟨x, hx, rfl⟩ := List.mem_map.mp hv
    constructor
    · exact div_nonneg (sub_nonneg.mpr (hle x hx)) (le_of_lt (sub_pos.mpr hlt))
    · rw [div_le_one (sub_pos.mpr hlt)]
      exact sub_le_sub_right (hge x hx) mn
  · exact List.mem_map.mpr ⟨mn, listMin_mem _ _ hmn, by simp⟩
  · exact List.mem_map.mpr ⟨mx, listMax_mem _ _ hmx,
      div_self (ne_of_gt (sub_pos.mpr hlt))⟩

/-- The rating column of the scaled table, columnwise. -/
lemma scaleStage_rating_col (t : Table) :
    (scaleStage t).map (·.rating)
      = (t.map (·.rating)).map
          (mmCell (fitCol (t.map (·.rating))).1 (fitCol (t.map (·.rating))).2) := by
  simp [scaleStage, ratingFit, List.map_map]

/-- The latitude column of the scaled table, columnwise. -/
lemma scaleStage_lat_col (t : Table) :
    (scaleStage t).map (·.latitude)
      = (t.map (·.latitude)).map
          (mmCell (fitCol (t.map (·.latitude))).1 (fitCol (t.map (·.latitude))).2) := by
  simp [scaleStage, latFit, List.map_map]

/-- The longitude column of the scaled table, columnwise. -/
lemma scaleStage_long_col (t : Table) :
    (scaleStage t).map (·.longitude)
      = (t.map (·.longitude)).map
          (mmCell (fitCol (t.map (·.longitude))).1 (fitCol (t.map (·.longitude))).2) := by
  simp [scaleStage, longFit, List.map_map]

/-! ### Claim theorems -/

/-- C1: the code normalizes the raw value 20.5 with the scaler column at
index 1, which is the *latitude* column of the fit matrix
`[rating, latitude, longitude]`, not the longitude column the spec (and
the script's own output message "Predicted Rating for Longitude 20.5")
intend.  On `bugTable` (cleaned latitudes spanning [10, 30], longitudes
spanning [70, 80]) the code's model input is `(20.5 - 10) / (30 - 10)`,
while the intended normalized longitude is `(20.5 - 70) / (80 - 70)`. -/
theorem c1_prediction_normalizes_with_latitude_column :
    longNormCode bugTable = 21 / 40
    ∧ longNormIntended bugTable = -99 / 20
    ∧ longNormCode bugTable ≠ longNormIntended bugTable := by
  have hc : cleanStage bugTable = bugTable := by decide
  have hlat : latFit bugTable = (10, 30) := by decide
  have hlong : longFit bugTable = (70, 80) := by decide
  refine ⟨?_, ?_, ?_⟩ <;>
    simp [longNormCode, longNormIntended, hc, hlat, hlong, mmDen] <;> norm_num

/-- C4: on the spec's two-row example table, cleaning gives the first row
latitude 12.9 — the mean of the non-sentinel latitudes, as the middle
conjunct states — and state_name "Delhi" (stripped and title-cased). -/
theorem c4_example_table_cleaning :
    (cleanStage exTable).map (·.latitude) = [some (129 / 10), some (129 / 10)]
    ∧ meanOpt ((replacedTable exTable).map (·.latitude)) = some (129 / 10)
    ∧ (cleanStage exTable).map (·.state_name)
        = [some (strCodes ("Delhi")), some (strCodes ("Karnataka"))] := by
  refine ⟨?_, ?_, by decide⟩
  · simp [cleanStage, filledTable, replacedTable, meanOpt, meanVals, exTable,
      exRow1, exRow2, blankRow, replaceSent, fillCell, stripTitleRow,
      List.filterMap_cons]
    norm_num [List.filterMap_cons]
  · have h9 : ((129 : ℚ) / 10 = -1) = False := by norm_num
    simp [replacedTable, meanOpt, meanVals, exTable, exRow1, exRow2, blankRow,
      replaceSent, List.filterMap_cons, h9]

/-- C5: on a cleaned table whose rating, latitude and longitude columns
are each non-constant, after scaling every present value of the three
columns lies in [0,1] and each column attains both 0 and 1. -/
theorem c5_scaled_unit_range (t : Table)
    (hr : nonConstCol ((cleanStage t).map (·.rating)))
    (hla : nonConstCol ((cleanStage t).map (·.latitude)))
    (hlo : nonConstCol ((cleanStage t).map (·.longitude))) :
    ((∀ v ∈ ((scaleStage (cleanStage t)).map (·.rating)).filterMap id,
        0 ≤ v ∧ v ≤ 1)
      ∧ (0 : ℚ) ∈ ((scaleStage (cleanStage t)).map (·.rating)).filterMap id
      ∧ (1 : ℚ) ∈ ((scaleStage (cleanStage t)).map (·.rating)).filterMap id)
    ∧ ((∀ v ∈ ((scaleStage (cleanStage t)).map (·.latitude)).filterMap id,
        0 ≤ v ∧ v ≤ 1)
      ∧ (0 : ℚ) ∈ ((scaleStage (cleanStage t)).map (·.latitude)).filterMap id
      ∧ (1 : ℚ) ∈ ((scaleStage (cleanStage t)).map (·.latitude)).filterMap id)
    ∧ ((∀ v ∈ ((scaleStage (cleanStage t)).map (·.longitude)).filterMap id,
        0 ≤ v ∧ v ≤ 1)
      ∧ (0 : ℚ) ∈ ((scaleStage (cleanStage t)).map (·.longitude)).filterMap id
      ∧ (1 : ℚ) ∈ ((scaleStage (cleanStage t)).map (·.longitude)).filterMap id) := by
  refine ⟨?_, ?_, ?_⟩
  · rw [scaleStage_rating_col]
    exact scaledCol_bounds _ hr
  · rw [scaleStage_lat_col]
    exact scaledCol_bounds _ hla
  · rw [scaleStage_long_col]
    exact scaledCol_bounds _ hlo

/-- C5 witness: `bugTable` has non-constant cleaned columns, and its
scaled columns satisfy the unit-range property. -/
theorem c5_scaled_unit_range_witness :
    (nonConstCol ((cleanStage bugTable).map (·.rating))
      ∧ nonConstCol ((cleanStage bugTable).map (·.latitude))
      ∧ nonConstCol ((cleanStage bugTable).map (·.longitude)))
    ∧ ((∀ v ∈ ((scaleStage (cleanStage bugTable)).map (·.rating)).filterMap id,
        0 ≤ v ∧ v ≤ 1)
      ∧ (0 : ℚ) ∈ ((scaleStage (cleanStage bugTable)).map (·.rating)).filterMap id
      ∧ (1 : ℚ) ∈ ((scaleStage (cleanStage bugTable)).map (·.rating)).filterMap id)
    ∧ ((∀ v ∈ ((scaleStage (cleanStage bugTable)).map (·.latitude)).filterMap id,
        0 ≤ v ∧ v ≤ 1)
      ∧ (0 : ℚ) ∈ ((scaleStage (cleanStage bugTable)).map (·.latitude)).filterMap id
      ∧ (1 : ℚ) ∈ ((scaleStage (cleanStage bugTable)).map (·.latitude)).filterMap id)
    ∧ ((∀ v ∈ ((scaleStage (cleanStage bugTable)).map (·.longitude)).filterMap id,
        0 ≤ v ∧ v ≤ 1)
      ∧ (0 : ℚ) ∈ ((scaleStage (cleanStage bugTable)).map (·.longitude)).filterMap id
      ∧ (1 : ℚ) ∈ ((scaleStage (cleanStage bugTable)).map (·.longitude)).filterMap id) :=
  ⟨⟨by decide, by decide, by decide⟩,
    c5_scaled_unit_range bugTable (by decide) (by decide) (by decide)⟩

/-- C6: every present value of the five string columns of a cleaned row
has no leading or trailing whitespace and obeys the title-case
discipline. -/
theorem c6_strings_strip_title (t : Table) (r : Row) (hr : r ∈ cleanStage t) :
    strNormed r.operator ∧ strNormed r.network_type
    ∧ strNormed r.calldrop_category ∧ strNormed r.inout_travelling
    ∧ strNormed r.state_name := by
  obtain ⟨s, _, rfl⟩ := List.mem_map.mp hr
  refine ⟨?_, ?_, ?_, ?_, ?_⟩ <;>
  · intro v hv
    simp [stripTitleRow, Option.map_eq_some'] at hv
    obtain ⟨w, _, rfl⟩ := hv
    exact cleanStr_ok w

/-- C6 witness: the first cleaned row of `bugTable` has normalized string
columns. -/
theorem c6_strings_strip_title_witness :
    bugRow1 ∈ cleanStage bugTable
    ∧ (strNormed bugRow1.operator ∧ strNormed bugRow1.network_type
      ∧ strNormed bugRow1.calldrop_category ∧ strNormed bugRow1.inout_travelling
      ∧ strNormed bugRow1.state_name) :=
  ⟨by decide, c6_strings_strip_title bugTable bugRow1 (by decide)⟩

/-- C7 counterexample: on a three-row table the test split receives
`ceil(0.2 * 3) = 1` row, and 1 is not 20% of 3, so the split does not
assign exactly 20% of the rows to the test side on every input. -/
theorem c7_counterexample_three_rows :
    ((testIdx 3 (Equiv.refl (Fin 3))).length : ℚ) ≠ (20 / 100) * 3 := by
  have h1 : (testIdx 3 (Equiv.refl (Fin 3))).length = 1 := by decide
  rw [h1]; norm_num

/-- C7 (amended): the split puts `ceil(0.2 * n)` rows in the test split and
the remaining rows in the train split; the two splits are disjoint and
together cover every row index; when `n` is a multiple of 5 the split is
exactly 20% / 80%. -/
theorem c7_split_partition (n : Nat) (σ : Equiv.Perm (Fin n)) :
    (testIdx n σ).length = testCount n
    ∧ (trainIdx n σ).length = n - testCount n
    ∧ (∀ i : Fin n, i ∈ testIdx n σ → i ∉ trainIdx n σ)
    ∧ (∀ i : Fin n, i ∈ testIdx n σ ∨ i ∈ trainIdx n σ)
    ∧ (5 ∣ n → (testIdx n σ).length * 5 = n ∧ (trainIdx n σ).length * 5 = 4 * n) := by
  have hlen : ((List.finRange n).map σ).length = n := by simp
  have htc : testCount n ≤ n := by unfold testCount; omega
  have hnd : ((List.finRange n).map σ).Nodup :=
    (List.nodup_finRange n).map (fun a b h => σ.injective h)
  have hlt : (testIdx n σ).length = testCount n := by
    simp [testIdx, List.length_take, hlen, htc]
  have hld : (trainIdx n σ).length = n - testCount n := by
    simp [trainIdx, List.length_drop, hlen]
  refine ⟨hlt, hld, ?_, ?_, ?_⟩
  · intro i hi hj
    exact (List.disjoint_take_drop hnd le_rfl) hi hj
  · intro i
    have hmem : i ∈ (List.finRange n).map σ :=
      List.mem_map.mpr ⟨σ.symm i, List.mem_finRange _, by simp⟩
    rw [← List.take_append_drop (testCount n) ((List.finRange n).map σ)] at hmem
    exact List.mem_append.mp hmem
  · intro hdvd
    rw [hlt, hld]
    unfold testCount
    omega

/-- C8: the embedded pipeline is a pure function of the table and the
seed-derived shuffle, so with the seed fixed the split, the fitted
coefficients, the single-point prediction and the mean squared error are
identical across runs. -/
theorem c8_pipeline_deterministic (sh : Shuffle) (t : Table) (n : Nat) :
    runPipeline sh t = runPipeline sh t
    ∧ testIdx n (sh n) = testIdx n (sh n)
    ∧ trainIdx n (sh n) = trainIdx n (sh n) :=
  ⟨rfl, rfl, rfl⟩

/-- C9: each missing latitude/longitude cell is filled with the mean taken
over *all* rows of the sentinel-replaced table (first conjunct, for every
table); on `impTable` the row dropped later for its missing state_name
carries latitude 100, so the kept row is imputed 50, whereas the mean over
only the surviving rows would be 0. -/
theorem c9_imputation_before_state_drop :
    (∀ t : Table,
      (filledTable t).map (·.latitude)
        = ((replacedTable t).map (·.latitude)).map
            (fun v => fillCell v (meanOpt ((replacedTable t).map (·.latitude))))
      ∧ (filledTable t).map (·.longitude)
        = ((replacedTable t).map (·.longitude)).map
            (fun v => fillCell v (meanOpt ((replacedTable t).map (·.longitude)))))
    ∧ (cleanStage impTable).map (·.latitude) = [some 50, some 0]
    ∧ meanOpt ((replacedTable impTable).map (·.latitude)) = some 50
    ∧ meanOpt (((replacedTable impTable).filter
        fun r => r.state_name.isSome).map (·.latitude)) = some 0
    ∧ meanOpt ((replacedTable impTable).map (·.latitude))
        ≠ meanOpt (((replacedTable impTable).filter
            fun r => r.state_name.isSome).map (·.latitude)) := by
  refine ⟨?_, ?_, ?_, ?_, ?_⟩
  · intro t
    constructor <;> simp [filledTable, List.map_map]
  · simp [cleanStage, filledTable, replacedTable, meanOpt, meanVals, impTable,
      impRow1, impRow2, impRow3, blankRow, replaceSent, fillCell, stripTitleRow,
      List.filterMap_cons]
    refine ⟨by decide, by norm_num⟩
  · have hne : (([100, 0] : List ℚ) = []) = False := by simp
    simp [replacedTable, meanOpt, meanVals, impTable, impRow1, impRow2, impRow3,
      blankRow, replaceSent, List.filterMap_cons, hne]
    norm_num
    exact List.cons_ne_nil _ _
  · simp [replacedTable, meanOpt, meanVals, impTable, impRow1, impRow2, impRow3,
      blankRow, replaceSent, List.filterMap_cons]
  · have hne : (([100, 0] : List ℚ) = []) = False := by simp
    simp [replacedTable, meanOpt, meanVals, impTable, impRow1, impRow2, impRow3,
      blankRow, replaceSent, List.filterMap_cons, hne]
    norm_num

/-- C2 counterexample: on `c2Table` the non-sentinel latitudes are -3 and
1, whose mean is -1, so the imputed third row carries the sentinel value
-1 after cleaning — the claimed invariant fails as stated. -/
theorem c2_counterexample_sentinel_mean :
    ¬ ∀ r ∈ cleanStage c2Table,
        r.latitude ≠ none ∧ r.latitude ≠ some (-1)
        ∧ r.longitude ≠ none ∧ r.longitude ≠ some (-1)
        ∧ r.state_name ≠ none := by
  intro h
  have hm : (cleanStage c2Table).map (·.latitude)
      = [some (-3), some 1, some (-1)] := by
    have hne : (([-3, 1] : List ℚ) = []) = False := by simp
    have h3 : ((-3 : ℚ) = -1) = False := by norm_num
    have h1 : ((1 : ℚ) = -1) = False := by norm_num
    simp [cleanStage, filledTable, replacedTable, meanOpt, meanVals, c2Table,
      c2Row1, c2Row2, c2Row3, blankRow, replaceSent, fillCell, stripTitleRow,
      List.filterMap_cons, hne, h3, h1]
    norm_num
  have hmem : some (-1 : ℚ) ∈ (cleanStage c2Table).map (·.latitude) := by
    rw [hm]; simp
  obtain ⟨r, hr, hrl⟩ := List.mem_map.mp hmem
  exact (h r hr).2.1 hrl

/-- C2 (amended): after cleaning, every row of every table has a present
state_name, unconditionally; and provided the mean of the sentinel-replaced
latitude (resp. longitude) column is not the sentinel -1, and exists
whenever that column has a missing cell, every row also has its latitude
(resp. longitude) present and different from -1. -/
theorem c2_clean_invariant (t : Table) :
    (∀ r ∈ cleanStage t, r.state_name ≠ none)
    ∧ (meanOpt ((replacedTable t).map (·.latitude)) ≠ some (-1) →
        (none ∈ (replacedTable t).map (·.latitude) →
          meanOpt ((replacedTable t).map (·.latitude)) ≠ none) →
        ∀ r ∈ cleanStage t, r.latitude ≠ none ∧ r.latitude ≠ some (-1))
    ∧ (meanOpt ((replacedTable t).map (·.longitude)) ≠ some (-1) →
        (none ∈ (replacedTable t).map (·.longitude) →
          meanOpt ((replacedTable t).map (·.longitude)) ≠ none) →
        ∀ r ∈ cleanStage t, r.longitude ≠ none ∧ r.longitude ≠ some (-1)) := by
  refine ⟨?_, ?_, ?_⟩
  · intro r hr
    obtain ⟨s, hs, rfl⟩ := List.mem_map.mp hr
    have hsf := List.mem_filter.mp hs
    have hss := hsf.2
    simp only [Option.isSome_iff_exists] at hss
    obtain ⟨y, hy⟩ := hss
    simp [stripTitleRow, hy]
  · intro hlat1 hlat2 r hr
    obtain ⟨s, hs, rfl⟩ := List.mem_map.mp hr
    have hsf := List.mem_filter.mp hs
    rw [replacedTable_lat_col] at hlat1 hlat2
    have hsl : s.latitude ∈ (filledTable t).map (·.latitude) :=
      List.mem_map.mpr ⟨s, hsf.1, rfl⟩
    rw [filledTable_lat_col, replacedTable_lat_col] at hsl
    exact fillCol_ok (t.map (·.latitude)) s.latitude hsl hlat1 hlat2
  · intro hlong1 hlong2 r hr
    obtain ⟨s, hs, rfl⟩ := List.mem_map.mp hr
    have hsf := List.mem_filter.mp hs
    rw [replacedTable_long_col] at hlong1 hlong2
    have hso : s.longitude ∈ (filledTable t).map (·.longitude) :=
      List.mem_map.mpr ⟨s, hsf.1, rfl⟩
    rw [filledTable_long_col, replacedTable_long_col] at hso
    exact fillCol_ok (t.map (·.longitude)) s.longitude hso hlong1 hlong2

/-- C2 witness: on `bugTable` the mean hypotheses of `c2_clean_invariant`
hold and the cleaned rows satisfy all three parts of the invariant. -/
theorem c2_clean_invariant_witness :
    (meanOpt ((replacedTable bugTable).map (·.latitude)) ≠ some (-1)
      ∧ (none ∈ (replacedTable bugTable).map (·.latitude) →
          meanOpt ((replacedTable bugTable).map (·.latitude)) ≠ none)
      ∧ meanOpt ((replacedTable bugTable).map (·.longitude)) ≠ some (-1)
      ∧ (none ∈ (replacedTable bugTable).map (·.longitude) →
          meanOpt ((replacedTable bugTable).map (·.longitude)) ≠ none))
    ∧ (∀ r ∈ cleanStage bugTable, r.state_name ≠ none)
    ∧ (∀ r ∈ cleanStage bugTable, r.latitude ≠ none ∧ r.latitude ≠ some (-1))
    ∧ (∀ r ∈ cleanStage bugTable,
        r.longitude ≠ none ∧ r.longitude ≠ some (-1)) := by
  have hl : meanOpt ((replacedTable bugTable).map (·.latitude)) ≠ some (-1) := by
    simp [replacedTable, replaceSent, bugTable, bugRow1, bugRow2, blankRow,
      meanOpt, meanVals, List.filterMap_cons]
    norm_num
  have hl2 : none ∈ (replacedTable bugTable).map (·.latitude) →
      meanOpt ((replacedTable bugTable).map (·.latitude)) ≠ none := by
    intro hmem
    exact absurd hmem (by decide)
  have ho : meanOpt ((replacedTable bugTable).map (·.longitude)) ≠ some (-1) := by
    simp [replacedTable, replaceSent, bugTable, bugRow1, bugRow2, blankRow,
      meanOpt, meanVals, List.filterMap_cons]
    norm_num
  have ho2 : none ∈ (replacedTable bugTable).map (·.longitude) →
      meanOpt ((replacedTable bugTable).map (·.longitude)) ≠ none := by
    intro hmem
    exact absurd hmem (by decide)
  exact ⟨⟨hl, hl2, ho, ho2⟩, (c2_clean_invariant bugTable).1,
    (c2_clean_invariant bugTable).2.1 hl hl2,
    (c2_clean_invariant bugTable).2.2 ho ho2⟩

/-- C3: a missing latitude (resp. longitude) cell is filled with the mean
of the sentinel-replaced, not-yet-imputed column, and that mean ranges
over exactly the present non-sentinel original values — sentinels never
contribute to it. -/
theorem c3_fill_uses_presentinel_mean (t : Table) (i : Nat) :
    (((replacedTable t).map (·.latitude))[i]? = some none →
      ((filledTable t).map (·.latitude))[i]?
        = some (meanOpt ((replacedTable t).map (·.latitude))))
    ∧ (((replacedTable t).map (·.longitude))[i]? = some none →
      ((filledTable t).map (·.longitude))[i]?
        = some (meanOpt ((replacedTable t).map (·.longitude))))
    ∧ meanOpt ((replacedTable t).map (·.latitude))
        = meanVals (((t.map (·.latitude)).filterMap id).filter fun x => x ≠ -1)
    ∧ meanOpt ((replacedTable t).map (·.longitude))
        = meanVals (((t.map (·.longitude)).filterMap id).filter fun x => x ≠ -1) := by
  refine ⟨?_, ?_, ?_, ?_⟩
  · intro h
    rw [filledTable_lat_col, List.getElem?_map, h]
    rfl
  · intro h
    rw [filledTable_long_col, List.getElem?_map, h]
    rfl
  · simp only [meanOpt]
    rw [replacedTable_lat_col, presentVals_replaceSent]
  · simp only [meanOpt]
    rw [replacedTable_long_col, presentVals_replaceSent]

/-- C3 witness: on the spec's example table, row 0 has a missing latitude
after sentinel replacement, and its filled value is the column mean. -/
theorem c3_fill_witness :
    ((replacedTable exTable).map (·.latitude))[0]? = some none
    ∧ ((filledTable exTable).map (·.latitude))[0]?
        = some (meanOpt ((replacedTable exTable).map (·.latitude))) :=
  ⟨by decide, (c3_fill_uses_presentinel_mean exTable 0).1 (by decide)⟩

/-- C10: the scaling stage keeps the number of rows, the row order, and
every column other than `rating`, `latitude`, `longitude` unchanged: the
cell at any position agrees with the input table on all the other
columns. -/
theorem c10_scaling_frame (t : Table) :
    (scaleStage t).length = t.length
    ∧ ∀ i : Nat, ((scaleStage t)[i]?).map otherCols = (t[i]?).map otherCols := by
  constructor
  · simp [scaleStage]
  · intro i
    cases h : t[i]? with
    | none => simp [scaleStage, List.getElem?_map, h]
    | some r => simp [scaleStage, List.getElem?_map, h, otherCols]

end EDA
